import Mathlib

/-!
Verification development for `nec2utils.py`, a generator of NEC2 "card stack"
antenna-geometry decks.

Embedding choices:
* Numbers are exact rationals (`ℚ`).  The Python code works with floats, but
  every claim under study concerns which value is routed into which field of
  which card, and record ordering, not float rounding.
* A card is embedded as a mnemonic plus a list of symbolic fields.  A field
  records the exact value handed to the Python formatter together with the
  formatter used (`dec` for integer fields, `sci` for scientific-notation
  fields).  The excitation card's two float fields are the cosine and sine of
  the feed angle; they are kept symbolic (`sciCos`/`sciSin`) because their
  values are transcendental.
* The integer formatter `dec` itself (a claim is about it) is embedded down to
  the string level, with `math.trunc` as exact truncation toward zero.
* Mutating methods of class `Model` become state-passing functions
  `Model → ⋯ → Model`; methods that can raise (`feedAtMiddle`/`loadAtMiddle`
  before any element exists, `addWireAutoseg` with a zero segment length)
  return `Option Model`.
-/

/-- Embeds Python `math.trunc` on exact rationals: truncation toward zero
(ceiling for negative arguments, floor otherwise). -/
def mathTrunc (q : ℚ) : ℤ := if q < 0 then ⌈q⌉ else ⌊q⌋

/-- Embeds `nec2utils.dec`: `' ' + str(math.trunc(i))`, a single leading space
followed by the decimal rendering of the truncated value. -/
def dec (i : ℚ) : String := " " ++ toString (mathTrunc i)

/-- One numeric field of a card, tagged with the formatter the Python code
applies to it.  `dec n` stands for the text `dec(n)`; `sci q` stands for
`sci(q)`; `sciCos a` / `sciSin a` stand for `sci(cos(deg2rad a))` /
`sci(sin(deg2rad a))`. -/
inductive CardField where
  | dec : ℤ → CardField
  | sci : ℚ → CardField
  | sciCos : ℚ → CardField
  | sciSin : ℚ → CardField
deriving DecidableEq, Repr

/-- One card (one output line): its two-letter mnemonic and its numeric
fields in emission order. -/
structure Card where
  mnemonic : String
  fields : List CardField
deriving DecidableEq, Repr

/-- Embeds class `Point` (3D coordinate, floats coerced on construction). -/
structure Point where
  x : ℚ
  y : ℚ
  z : ℚ
deriving DecidableEq, Repr

/-- Embeds class `Rotation` (per-axis angles in degrees). -/
structure Rotation where
  rx : ℚ
  ry : ℚ
  rz : ℚ
deriving DecidableEq, Repr

/-- Embeds `Model.gw`: straight-wire geometry card. -/
def gw (tag segments : ℤ) (x1 y1 z1 x2 y2 z2 radius : ℚ) : Card :=
  ⟨"GW", [.dec tag, .dec segments,
          .sci x1, .sci y1, .sci z1, .sci x2, .sci y2, .sci z2, .sci radius]⟩

/-- Embeds `Model.ga`: arc geometry card; the three trailing fields are the
unused placeholders emitted as `0.0`. -/
def ga (tag segments : ℤ) (arcRadius startAngle endAngle wireRadius : ℚ) : Card :=
  ⟨"GA", [.dec tag, .dec segments,
          .sci arcRadius, .sci startAngle, .sci endAngle, .sci wireRadius,
          .sci 0, .sci 0, .sci 0]⟩

/-- Embeds `Model.gm`: move (rotate and translate) card.  The two leading
integer fields (tag increment, new-structures flag) are always 0, and the
first-tag field is emitted through `sci` (Python `sci(firstTag*1.0)`). -/
def gm (rotX rotY rotZ trX trY trZ : ℚ) (firstTag : ℤ) : Card :=
  ⟨"GM", [.dec 0, .dec 0,
          .sci rotX, .sci rotY, .sci rotZ,
          .sci trX, .sci trY, .sci trZ, .sci (firstTag : ℚ)]⟩

/-- Embeds `Model.ge`: end-of-geometry card carrying the ground-plane flag. -/
def ge (gpflag : ℤ) : Card :=
  ⟨"GE", [.dec gpflag]⟩

/-- Embeds `Model.gn`: ground-type card with fixed auxiliary constants. -/
def gn (gtypeflag : ℤ) : Card :=
  ⟨"GN", [.dec gtypeflag, .dec 0, .dec 0, .dec 0, .sci 13, .sci (5 / 1000)]⟩

/-- Embeds `Model.fr`: linear frequency-sweep card
(`IFRQ = 0`, `NFRQ = stepCount`, two blank integer fields, then the start
frequency and step increment). -/
def fr (start stepSize : ℚ) (stepCount : ℤ) : Card :=
  ⟨"FR", [.dec 0, .dec stepCount, .dec 0, .dec 0, .sci start, .sci stepSize]⟩

/-- Embeds `Model.ex`: voltage-source excitation card; the two float fields
are the cosine and sine of the feed angle (degrees). -/
def ex (tag segment : ℤ) (angle : ℚ) : Card :=
  ⟨"EX", [.dec 0, .dec tag, .dec segment, .dec 0, .sciCos angle, .sciSin angle]⟩

/-- Embeds `Model.ld`: series-RLC load card (type 0).  The segment number is
emitted for both the start-segment and end-segment fields; the float fields
are the resistance then the inductance (the capacitive `F3 = 0` is computed
but never emitted by the source). -/
def ld (tag segment : ℤ) (r l : ℚ) : Card :=
  ⟨"LD", [.dec 0, .dec tag, .dec segment, .dec segment, .sci r, .sci l]⟩

/-- Embeds `Model.rp`: radiation-pattern request card.  The body reassigns
`NTH = 37` and `NPH = 73` before emitting, so the caller's arguments are
discarded (nec2utils.py lines 217-218). -/
def rp (NTH NPH : ℤ) : Card :=
  let NTH : ℤ := 37
  let NPH : ℤ := 73
  ⟨"RP", [.dec 0, .dec NTH, .dec NPH, .dec 1000,
          .sci (-90), .sci 0, .sci 5, .sci 5]⟩

/-- Embeds `Model.en`: end-of-input card. -/
def en : Card :=
  ⟨"EN", []⟩

/-- Embeds the mutable state of class `Model`, field for field in
`__init__` order.  `middle` is absent until the first wire or arc is added
(Python would raise `AttributeError` on earlier access), hence `Option`. -/
structure Model where
  wires : List Card
  transforms : List Card
  wireRadius : ℚ
  tag : ℤ
  EX_tags : List ℤ
  EX_angles : List ℚ
  EX_segments : List ℤ
  LD_tags : List ℤ
  LD_segments : List ℤ
  LD_r : List ℚ
  LD_l : List ℚ
  gpflag : ℤ
  transformBuffer : List Card
  middle : Option ℤ
deriving DecidableEq, Repr

/-- Embeds `Model.__init__(wireRadius, ground = 0)`. -/
def mkModel (wireRadius : ℚ) (ground : ℤ) : Model :=
  ⟨[], [], wireRadius, 0, [], [], [], [], [], [], [], ground, [], none⟩

/-- Embeds `Model.flushTransformBuffer`: move the staged transform cards into
the committed `transforms` and clear the buffer. -/
def flushTransformBuffer (m : Model) : Model :=
  { m with transforms := m.transforms ++ m.transformBuffer, transformBuffer := [] }

/-- Embeds `Model.addWire`: bump the tag, append the GW card, flush the
transform buffer, recompute the middle segment.  The source is Python 2, so
`segments/2` on an integer argument is floor division (then `math.trunc` is
the identity). -/
def addWire (m : Model) (segments : ℤ) (pt1 pt2 : Point) : Model :=
  let tag := m.tag + 1
  let m1 := { m with
    tag := tag
    wires := m.wires ++ [gw tag segments pt1.x pt1.y pt1.z pt2.x pt2.y pt2.z m.wireRadius] }
  let m2 := flushTransformBuffer m1
  { m2 with middle := some (Int.fdiv segments 2 + 1) }

/-- Least natural `n` with `q ≤ n ^ 2`, i.e. `⌈√q⌉` for `0 ≤ q` (and 0 for
negative `q`): an exact-real model of `math.ceil` applied to a square root. -/
def ceilSqrt (q : ℚ) : ℤ :=
  if q ≤ 0 then 0
  else
    let r := Nat.sqrt (⌈q⌉).toNat
    if q ≤ ((r : ℚ) * r) then (r : ℤ) else (r : ℤ) + 1

/-- `⌊√q⌋` for `0 ≤ q` (and 0 for negative `q`). -/
def floorSqrt (q : ℚ) : ℤ :=
  if q ≤ 0 then 0 else (Nat.sqrt (⌊q⌋).toNat : ℤ)

/-- Exact-real model of `math.ceil(sqrt d2 / dseg)` for `dseg ≠ 0`:
for positive `dseg` this is `⌈√(d2 / dseg²)⌉`; for negative `dseg` the
quotient is nonpositive and its ceiling is `-⌊√(d2 / dseg²)⌋`. -/
def ceilSqrtDiv (d2 dseg : ℚ) : ℤ :=
  if dseg < 0 then -(floorSqrt (d2 / dseg ^ 2)) else ceilSqrt (d2 / dseg ^ 2)

/-- Embeds `Model.addWireAutoseg`: like `addWire` but the segment count is
`ceil(dist(pt1, pt2) / dseg)` (modelled with exact real arithmetic).  With
`dseg = 0` the Python division raises `ZeroDivisionError` before any state is
touched, hence `none`. -/
def addWireAutoseg (m : Model) (dseg : ℚ) (pt1 pt2 : Point) : Option Model :=
  if dseg = 0 then none
  else
    let d2 := (pt1.x - pt2.x) ^ 2 + (pt1.y - pt2.y) ^ 2 + (pt1.z - pt2.z) ^ 2
    let segments := ceilSqrtDiv d2 dseg
    let tag := m.tag + 1
    let m1 := { m with
      tag := tag
      wires := m.wires ++ [gw tag segments pt1.x pt1.y pt1.z pt2.x pt2.y pt2.z m.wireRadius] }
    let m2 := flushTransformBuffer m1
    some { m2 with middle := some (Int.fdiv segments 2 + 1) }

/-- Embeds `Model.addArc`: bump the tag, append the GA card, flush the
transform buffer, recompute the middle segment, commit the GM card that moves
the arc into place (referencing the arc's own tag), then stage — in the
buffer, not in `transforms` — the four GM cards that undo the translation and
the Z-, Y- and X-rotations, each referencing `tag + 1`. -/
def addArc (m : Model) (segments : ℤ) (radius startAngle endAngle : ℚ)
    (rotate : Rotation) (translate : Point) : Model :=
  let tag := m.tag + 1
  let m1 := { m with
    tag := tag
    wires := m.wires ++ [ga tag segments radius startAngle endAngle m.wireRadius] }
  let m2 := flushTransformBuffer m1
  let m3 := { m2 with middle := some (Int.fdiv segments 2 + 1) }
  let r := rotate
  let t := translate
  let m4 := { m3 with transforms := m3.transforms ++ [gm r.rx r.ry r.rz t.x t.y t.z tag] }
  { m4 with transformBuffer := m4.transformBuffer ++
      [gm 0 0 0 (-t.x) (-t.y) (-t.z) (tag + 1),
       gm 0 0 (-r.rz) 0 0 0 (tag + 1),
       gm 0 (-r.ry) 0 0 0 0 (tag + 1),
       gm (-r.rx) 0 0 0 0 0 (tag + 1)]}

/-- Embeds `Model.feedAtMiddle`: record an excitation on the middle segment of
the most recently added element (`none` when no element exists yet). -/
def feedAtMiddle (m : Model) (angle : ℚ) : Option Model :=
  m.middle.map fun mid =>
    { m with
      EX_tags := m.EX_tags ++ [m.tag]
      EX_segments := m.EX_segments ++ [mid]
      EX_angles := m.EX_angles ++ [angle] }

/-- Embeds `Model.loadAtMiddle(l, r)`: record a load on the middle segment of
the most recently added element (`none` when no element exists yet).  Note the
parameter order of the source: the first parameter is `l` (appended to
`LD_l`), the second is `r` (appended to `LD_r`). -/
def loadAtMiddle (m : Model) (l r : ℚ) : Option Model :=
  m.middle.map fun mid =>
    { m with
      LD_tags := m.LD_tags ++ [m.tag]
      LD_segments := m.LD_segments ++ [mid]
      LD_l := m.LD_l ++ [l]
      LD_r := m.LD_r ++ [r] }

/-- Embeds `Model.setRadius`. -/
def setRadius (m : Model) (radius : ℚ) : Model :=
  { m with wireRadius := radius }

/-- The EX cards emitted by the `getText` loop: the i-th excitation pairs
`EX_tags[i]` with `EX_segments[i]` and `EX_angles[i]`. -/
def exCards (m : Model) : List Card :=
  (m.EX_tags.zip (m.EX_segments.zip m.EX_angles)).map fun p => ex p.1 p.2.1 p.2.2

/-- The LD cards emitted by the `getText` loop: the i-th load pairs
`LD_tags[i]` with `LD_segments[i]`, `LD_r[i]` and `LD_l[i]`. -/
def ldCards (m : Model) : List Card :=
  (m.LD_tags.zip (m.LD_segments.zip (m.LD_r.zip m.LD_l))).map
    fun p => ld p.1 p.2.1 p.2.2.1 p.2.2.2

/-- The footer assembled by `Model.getText`: the GE card, a GN card when the
ground flag is set, all EX cards, all LD cards, the FR card, an RP card
(`rp()` when `radpat`, `rp(NTH=3, NPH=3)` otherwise), and the EN card. -/
def footerOf (m : Model) (start stepSize : ℚ) (stepCount : ℤ) (radpat : Bool) : List Card :=
  [ge m.gpflag]
    ++ (if m.gpflag ≠ 0 then [gn 2] else [])
    ++ exCards m
    ++ ldCards m
    ++ [fr start stepSize stepCount]
    ++ (if radpat then [rp 37 73] else [rp 3 3])
    ++ [en]

/-- Embeds `Model.getText`: the accumulated wire cards, then the committed
transform cards (the staged buffer is not read), then the footer. -/
def getText (m : Model) (start stepSize : ℚ) (stepCount : ℤ) (radpat : Bool) : List Card :=
  m.wires ++ m.transforms ++ footerOf m start stepSize stepCount radpat

/-- State-threading form of `Model.getText`: the method body reads fields but
assigns none, so the state it hands back is the input state. -/
def getTextM (m : Model) (start stepSize : ℚ) (stepCount : ℤ) (radpat : Bool) :
    List Card × Model :=
  (getText m start stepSize stepCount radpat, m)

/-! ## Claim theorems -/

/-- C10: `dec` truncates toward zero — the emitted integer never exceeds the
input in absolute value, is within one of it, and keeps its sign (so it is
neither rounding nor flooring) — and the result is a single leading space
followed by the decimal integer, with `dec (39/10) = " 3"` and
`dec (-(39/10)) = " -3"`. -/
theorem dec_truncates_toward_zero (q : ℚ) :
    dec q = " " ++ toString (mathTrunc q) ∧
    (|(mathTrunc q : ℚ)| ≤ |q| ∧ |q| < |(mathTrunc q : ℚ)| + 1 ∧
      (0 ≤ q → 0 ≤ mathTrunc q) ∧ (q ≤ 0 → mathTrunc q ≤ 0)) ∧
    dec (39/10 : ℚ) = " 3" ∧ dec (-(39/10) : ℚ) = " -3" := by
  have hconc1 : dec (39/10 : ℚ) = " 3" := by
    have h : mathTrunc (39/10 : ℚ) = 3 := by norm_num [mathTrunc]
    unfold dec
    rw [h]
    decide
  have hconc2 : dec (-(39/10) : ℚ) = " -3" := by
    have h : mathTrunc (-(39/10) : ℚ) = -3 := by
      unfold mathTrunc
      rw [if_pos (by norm_num), Int.ceil_neg]
      norm_num
    unfold dec
    rw [h]
    decide
  refine ⟨rfl, ?_, hconc1, hconc2⟩
  by_cases hq : q < 0
  · have hm : mathTrunc q = ⌈q⌉ := if_pos hq
    rw [hm]
    have h1 : q ≤ (⌈q⌉ : ℚ) := Int.le_ceil q
    have h2 : ((⌈q⌉ : ℚ)) < q + 1 := Int.ceil_lt_add_one q
    have hc : ⌈q⌉ ≤ 0 := Int.ceil_le.2 (by exact_mod_cast hq.le)
    have h3 : ((⌈q⌉ : ℚ)) ≤ 0 := by exact_mod_cast hc
    refine ⟨?_, ?_, fun h => absurd hq h.not_lt, fun _ => hc⟩
    · rw [abs_of_nonpos h3, abs_of_nonpos hq.le]
      linarith
    · rw [abs_of_nonpos hq.le, abs_of_nonpos h3]
      linarith
  · have h0 : 0 ≤ q := not_lt.1 hq
    have hm : mathTrunc q = ⌊q⌋ := if_neg hq
    rw [hm]
    have h1 : ((⌊q⌋ : ℚ)) ≤ q := Int.floor_le q
    have h2 : q < (⌊q⌋ : ℚ) + 1 := Int.lt_floor_add_one q
    have hf : 0 ≤ ⌊q⌋ := Int.floor_nonneg.2 h0
    have h3 : (0 : ℚ) ≤ ((⌊q⌋ : ℚ)) := by exact_mod_cast hf
    refine ⟨?_, ?_, fun _ => hf, fun h => Int.floor_nonpos h⟩
    · rw [abs_of_nonneg h3, abs_of_nonneg h0]
      linarith
    · rw [abs_of_nonneg h0, abs_of_nonneg h3]
      linarith

/-- Witness for C10 at concrete inputs. -/
theorem dec_truncates_toward_zero_witness :
    dec (39/10 : ℚ) = " 3" ∧ 0 ≤ mathTrunc (5/2 : ℚ) :=
  ⟨(dec_truncates_toward_zero 0).2.2.1,
   (dec_truncates_toward_zero (5/2)).2.1.2.2.1 (by norm_num)⟩

/-- C5: the RP emitter discards its caller-supplied NTH/NPH arguments — it
always produces the fixed 37 × 73 grid card, so any two calls give identical
output. -/
theorem rp_ignores_caller_grid :
    (∀ a b : ℤ, rp a b =
      Card.mk "RP" [.dec 0, .dec 37, .dec 73, .dec 1000,
                    .sci (-90), .sci 0, .sci 5, .sci 5]) ∧
    (∀ a b c d : ℤ, rp a b = rp c d) :=
  ⟨fun _ _ => rfl, fun _ _ _ _ => rfl⟩

/-- C2 (code evaluated at the failing input): `getText` with
`radiationPattern = false` still emits the full-grid RP card (NTH = 37,
NPH = 73), because `rp` discards the NTH = 3, NPH = 3 passed to it; indeed the
`radiationPattern` flag has no effect on the output at all. -/
theorem radpat_minimal_grid_ignored :
    getText (mkModel 1 0) 100 1 1 false =
      [Card.mk "GE" [.dec 0],
       Card.mk "FR" [.dec 0, .dec 1, .dec 0, .dec 0, .sci 100, .sci 1],
       Card.mk "RP" [.dec 0, .dec 37, .dec 73, .dec 1000,
                     .sci (-90), .sci 0, .sci 5, .sci 5],
       Card.mk "EN" []] ∧
    (∀ m fs ss c, getText m fs ss c false = getText m fs ss c true) :=
  ⟨rfl, fun _ _ _ _ => rfl⟩

/-- C9: `getText` mutates nothing — the state it hands back is the input
state, every field included — and a second call on that state returns the
identical card stack. -/
theorem getText_pure_and_idempotent (m : Model) (start stepSize : ℚ)
    (stepCount : ℤ) (radpat : Bool) :
    (getTextM m start stepSize stepCount radpat).2 = m ∧
    (getTextM m start stepSize stepCount radpat).1 =
      (getTextM ((getTextM m start stepSize stepCount radpat).2)
        start stepSize stepCount radpat).1 :=
  ⟨rfl, rfl⟩

/-- C7: `addArc` stages exactly four restore cards, in the order undo
translation, undo Z-rotation, undo Y-rotation, undo X-rotation, each
referencing the arc's tag (`m.tag + 1`) plus one; the committed transforms
receive only the apply card referencing the arc's own tag. -/
theorem addArc_stages_four_restores (m : Model) (s : ℤ) (radius sa ea : ℚ)
    (rot : Rotation) (t : Point) :
    (addArc m s radius sa ea rot t).transformBuffer =
      [gm 0 0 0 (-t.x) (-t.y) (-t.z) (m.tag + 1 + 1),
       gm 0 0 (-rot.rz) 0 0 0 (m.tag + 1 + 1),
       gm 0 (-rot.ry) 0 0 0 0 (m.tag + 1 + 1),
       gm (-rot.rx) 0 0 0 0 0 (m.tag + 1 + 1)] ∧
    (addArc m s radius sa ea rot t).tag = m.tag + 1 ∧
    (addArc m s radius sa ea rot t).transforms =
      m.transforms ++ m.transformBuffer ++
        [gm rot.rx rot.ry rot.rz t.x t.y t.z (m.tag + 1)] :=
  ⟨rfl, rfl, rfl⟩

/-- C8: the tag counter starts at 0, each of `addWire`, `addWireAutoseg` and
`addArc` increments it by exactly 1, and no other operation changes it. -/
theorem tag_counter_behavior :
    (∀ r g, (mkModel r g).tag = 0) ∧
    (∀ m s p1 p2, (addWire m s p1 p2).tag = m.tag + 1) ∧
    (∀ m d p1 p2 m', addWireAutoseg m d p1 p2 = some m' → m'.tag = m.tag + 1) ∧
    (∀ m s r sa ea rot t, (addArc m s r sa ea rot t).tag = m.tag + 1) ∧
    (∀ m r, (setRadius m r).tag = m.tag) ∧
    (∀ m a m', feedAtMiddle m a = some m' → m'.tag = m.tag) ∧
    (∀ m l r m', loadAtMiddle m l r = some m' → m'.tag = m.tag) ∧
    (∀ m fs ss c b, ((getTextM m fs ss c b).2).tag = m.tag) := by
  refine ⟨fun _ _ => rfl, fun _ _ _ _ => rfl, ?_, fun _ _ _ _ _ _ _ => rfl,
    fun _ _ => rfl, ?_, ?_, fun _ _ _ _ _ => rfl⟩
  · intro m d p1 p2 m' h
    unfold addWireAutoseg at h
    by_cases hd : d = 0
    · rw [if_pos hd] at h
      exact Option.noConfusion h
    · rw [if_neg hd] at h
      cases Option.some.inj h
      rfl
  · intro m a m' h
    unfold feedAtMiddle at h
    obtain ⟨mid, hmid, rfl⟩ := Option.map_eq_some'.1 h
    rfl
  · intro m l r m' h
    unfold loadAtMiddle at h
    obtain ⟨mid, hmid, rfl⟩ := Option.map_eq_some'.1 h
    rfl

/-- Witness for C8: a feed attached after one wire leaves the tag at 1. -/
theorem tag_counter_behavior_witness :
    (Model.mk [gw 1 7 0 0 0 1 0 0 1] [] 1 1 [1] [0] [4] [] [] [] [] 0 [] (some 4)).tag
      = (addWire (mkModel 1 0) 7 ⟨0, 0, 0⟩ ⟨1, 0, 0⟩).tag :=
  tag_counter_behavior.2.2.2.2.2.1
    (addWire (mkModel 1 0) 7 ⟨0, 0, 0⟩ ⟨1, 0, 0⟩) 0 _ rfl

/-- C6: right after an `addArc` the four restore cards sit in the staging
buffer; `getText` neither emits them (its output is unchanged if the buffer is
emptied) nor flushes them (it returns the state untouched); the buffer is
flushed into the committed transforms exactly by a subsequent `addWire`,
`addWireAutoseg` or `addArc`, while `setRadius`, `feedAtMiddle` and
`loadAtMiddle` leave it alone; and once another element is added the staged
cards do appear in the render. -/
theorem getText_keeps_buffer_staged (mdl m' : Model) (s : ℤ) (r sa ea : ℚ)
    (rot : Rotation) (t : Point) (fs ss : ℚ) (sc : ℤ) (rad : Bool)
    (h : m' = addArc mdl s r sa ea rot t) :
    (getTextM m' fs ss sc rad).2 = m' ∧
    m'.transformBuffer ≠ [] ∧
    getText m' fs ss sc rad = getText { m' with transformBuffer := [] } fs ss sc rad ∧
    (∀ sg p1 p2, (addWire m' sg p1 p2).transforms = m'.transforms ++ m'.transformBuffer ∧
      (addWire m' sg p1 p2).transformBuffer = []) ∧
    (∀ d p1 p2 m2, addWireAutoseg m' d p1 p2 = some m2 →
      m2.transforms = m'.transforms ++ m'.transformBuffer ∧ m2.transformBuffer = []) ∧
    (∀ s2 r2 sa2 ea2 rot2 t2,
      (addArc m' s2 r2 sa2 ea2 rot2 t2).transforms =
        m'.transforms ++ m'.transformBuffer ++
          [gm rot2.rx rot2.ry rot2.rz t2.x t2.y t2.z (m'.tag + 1)]) ∧
    (∀ rr, (setRadius m' rr).transformBuffer = m'.transformBuffer) ∧
    (∀ a m2, feedAtMiddle m' a = some m2 → m2.transformBuffer = m'.transformBuffer) ∧
    (∀ ll rr m2, loadAtMiddle m' ll rr = some m2 → m2.transformBuffer = m'.transformBuffer) ∧
    (∀ sg p1 p2, getText (addWire m' sg p1 p2) fs ss sc rad =
      (m'.wires ++ [gw (m'.tag + 1) sg p1.x p1.y p1.z p2.x p2.y p2.z m'.wireRadius])
        ++ (m'.transforms ++ m'.transformBuffer) ++ footerOf m' fs ss sc rad) := by
  subst h
  refine ⟨rfl, ?_, rfl, fun _ _ _ => ⟨rfl, rfl⟩, ?_, fun _ _ _ _ _ _ => rfl,
    fun _ => rfl, ?_, ?_, fun _ _ _ => rfl⟩
  · intro hnil
    have := congrArg List.length hnil
    simp [addArc, flushTransformBuffer] at this
  · intro d p1 p2 m2 hh
    unfold addWireAutoseg at hh
    by_cases hd : d = 0
    · rw [if_pos hd] at hh
      exact Option.noConfusion hh
    · rw [if_neg hd] at hh
      cases Option.some.inj hh
      exact ⟨rfl, rfl⟩
  · intro a m2 hh
    unfold feedAtMiddle at hh
    obtain ⟨mid, hmid, rfl⟩ := Option.map_eq_some'.1 hh
    rfl
  · intro ll rr m2 hh
    unfold loadAtMiddle at hh
    obtain ⟨mid, hmid, rfl⟩ := Option.map_eq_some'.1 hh
    rfl

/-- Witness for C6: after a concrete `addArc`, `getText` hands back the state
unchanged. -/
theorem getText_keeps_buffer_staged_witness :
    (getTextM (addArc (mkModel 1 0) 8 2 0 90 ⟨10, 20, 30⟩ ⟨1, 2, 3⟩) 100 1 1 true).2
      = addArc (mkModel 1 0) 8 2 0 90 ⟨10, 20, 30⟩ ⟨1, 2, 3⟩ :=
  (getText_keeps_buffer_staged (mkModel 1 0) _ 8 2 0 90 ⟨10, 20, 30⟩ ⟨1, 2, 3⟩
    100 1 1 true rfl).1

/-- C4 (amended): one wire from the origin to (1,0,0) renders as exactly the
GW card (tag 1, the given segment count and radius), then GE, then the FR card
with fields (0, 1, 0, 0, 100, 1) — the third field is the blank 0, not 1 —
then the RP card, then EN. -/
theorem wire_stack_layout (n : ℤ) (radius : ℚ) :
    getText (addWire (mkModel radius 0) n ⟨0, 0, 0⟩ ⟨1, 0, 0⟩) 100 1 1 true =
      [Card.mk "GW" [.dec 1, .dec n, .sci 0, .sci 0, .sci 0,
                     .sci 1, .sci 0, .sci 0, .sci radius],
       Card.mk "GE" [.dec 0],
       Card.mk "FR" [.dec 0, .dec 1, .dec 0, .dec 0, .sci 100, .sci 1],
       Card.mk "RP" [.dec 0, .dec 37, .dec 73, .dec 1000,
                     .sci (-90), .sci 0, .sci 5, .sci 5],
       Card.mk "EN" []] :=
  rfl

/-- Counterexample for C4 as stated: the rendered stack contains no FR card
with fields (0, 1, 1, 0, 100, 1); the FR card it does contain has
(0, 1, 0, 0, 100, 1). -/
theorem wire_stack_layout_cex :
    Card.mk "FR" [.dec 0, .dec 1, .dec 1, .dec 0, .sci 100, .sci 1]
        ∉ getText (addWire (mkModel 1 0) 7 ⟨0, 0, 0⟩ ⟨1, 0, 0⟩) 100 1 1 true ∧
    Card.mk "FR" [.dec 0, .dec 1, .dec 0, .dec 0, .sci 100, .sci 1]
        ∈ getText (addWire (mkModel 1 0) 7 ⟨0, 0, 0⟩ ⟨1, 0, 0⟩) 100 1 1 true := by
  exact ⟨by decide, by decide⟩

/-- C3 (amended): `loadAtMiddle` takes the inductance first and the
resistance second (source signature `loadAtMiddle(self, l, r)`); on a model
with an element (so `middle` is set) and aligned load lists it appends a load
that `getText` renders as an LD card carrying the last element's tag, the
middle segment duplicated into both segment fields, the second argument `r` in
the first float field (resistance) and the first argument `l` in the second
float field (inductance). -/
theorem loadAtMiddle_field_routing (mdl m' : Model) (mid : ℤ) (l r : ℚ)
    (fs ss : ℚ) (sc : ℤ) (rad : Bool)
    (hmid : mdl.middle = some mid)
    (h : loadAtMiddle mdl l r = some m')
    (hlen1 : mdl.LD_tags.length = mdl.LD_segments.length)
    (hlen2 : mdl.LD_segments.length = mdl.LD_r.length)
    (hlen3 : mdl.LD_r.length = mdl.LD_l.length) :
    getText m' fs ss sc rad =
      mdl.wires ++ mdl.transforms
        ++ [ge mdl.gpflag]
        ++ (if mdl.gpflag ≠ 0 then [gn 2] else [])
        ++ exCards mdl
        ++ ldCards mdl
        ++ [Card.mk "LD" [.dec 0, .dec mdl.tag, .dec mid, .dec mid, .sci r, .sci l]]
        ++ [fr fs ss sc]
        ++ (if rad then [rp 37 73] else [rp 3 3])
        ++ [en] := by
  unfold loadAtMiddle at h
  rw [hmid, Option.map_some'] at h
  cases Option.some.inj h
  have e1 : (mdl.LD_r ++ [r]).zip (mdl.LD_l ++ [l])
      = mdl.LD_r.zip mdl.LD_l ++ [(r, l)] := List.zip_append hlen3
  have e2 : (mdl.LD_segments ++ [mid]).zip (mdl.LD_r.zip mdl.LD_l ++ [(r, l)])
      = mdl.LD_segments.zip (mdl.LD_r.zip mdl.LD_l) ++ [(mid, (r, l))] :=
    List.zip_append (by simp [List.length_zip]; omega)
  have e3 : (mdl.LD_tags ++ [mdl.tag]).zip
        (mdl.LD_segments.zip (mdl.LD_r.zip mdl.LD_l) ++ [(mid, (r, l))])
      = mdl.LD_tags.zip (mdl.LD_segments.zip (mdl.LD_r.zip mdl.LD_l))
          ++ [(mdl.tag, (mid, (r, l)))] :=
    List.zip_append (by simp [List.length_zip]; omega)
  show getText { mdl with
      LD_tags := mdl.LD_tags ++ [mdl.tag]
      LD_segments := mdl.LD_segments ++ [mid]
      LD_l := mdl.LD_l ++ [l]
      LD_r := mdl.LD_r ++ [r] } fs ss sc rad = _
  unfold getText footerOf ldCards
  rw [show ({ mdl with
      LD_tags := mdl.LD_tags ++ [mdl.tag]
      LD_segments := mdl.LD_segments ++ [mid]
      LD_l := mdl.LD_l ++ [l]
      LD_r := mdl.LD_r ++ [r] } : Model).LD_tags = mdl.LD_tags ++ [mdl.tag] from rfl]
  simp only [e1, e2, e3, List.map_append]
  simp [ld, exCards, List.append_assoc]

/-- Witness for C3: one wire of 7 segments, then `loadAtMiddle 5 2`
(inductance 5, resistance 2) renders the LD card `LD 0 1 4 4 | 2 5`. -/
theorem loadAtMiddle_field_routing_witness :
    getText (Model.mk [gw 1 7 0 0 0 1 0 0 1] [] 1 1 [] [] [] [1] [4] [2] [5]
        0 [] (some 4)) 100 1 1 true =
      [gw 1 7 0 0 0 1 0 0 1, ge 0,
       Card.mk "LD" [.dec 0, .dec 1, .dec 4, .dec 4, .sci 2, .sci 5],
       fr 100 1 1, rp 37 73, en] := by
  have hthm := loadAtMiddle_field_routing
    (addWire (mkModel 1 0) 7 ⟨0, 0, 0⟩ ⟨1, 0, 0⟩)
    (Model.mk [gw 1 7 0 0 0 1 0 0 1] [] 1 1 [] [] [] [1] [4] [2] [5] 0 [] (some 4))
    4 5 2 100 1 1 true rfl rfl rfl rfl rfl
  exact hthm.trans (by decide)

/-- Counterexample for C3 as stated: calling `loadAtMiddle` with first
argument 2 and second argument 5 yields an LD card whose first float field is
5, not the first argument 2 — the claimed record with 2 first is not
produced. -/
theorem loadAtMiddle_field_routing_cex :
    (Option.map (fun mm => getText mm 100 1 1 true)
        (loadAtMiddle (addWire (mkModel 1 0) 7 ⟨0, 0, 0⟩ ⟨1, 0, 0⟩) 2 5))
      = some [gw 1 7 0 0 0 1 0 0 1, ge 0,
              Card.mk "LD" [.dec 0, .dec 1, .dec 4, .dec 4, .sci 5, .sci 2],
              fr 100 1 1, rp 37 73, en] ∧
    (Option.map (fun mm => getText mm 100 1 1 true)
        (loadAtMiddle (addWire (mkModel 1 0) 7 ⟨0, 0, 0⟩ ⟨1, 0, 0⟩) 2 5))
      ≠ some [gw 1 7 0 0 0 1 0 0 1, ge 0,
              Card.mk "LD" [.dec 0, .dec 1, .dec 4, .dec 4, .sci 2, .sci 5],
              fr 100 1 1, rp 37 73, en] := by
  exact ⟨by decide, by decide⟩

/-- C1 (amended): after two consecutive `addArc` calls the render places both
GA cards first (all geometry cards precede all transform cards), and within
the transform cards the first arc's apply-GM comes first, then its four
restore cards — flushed out of the staging buffer by the second `addArc` —
then the second arc's apply-GM. -/
theorem arc_arc_render_order (mdl : Model) (s1 : ℤ) (r1 a1 b1 : ℚ)
    (rot1 : Rotation) (t1 : Point) (s2 : ℤ) (r2 a2 b2 : ℚ)
    (rot2 : Rotation) (t2 : Point) (fs ss : ℚ) (sc : ℤ) (rad : Bool)
    (hnz : rot1 ≠ ⟨0, 0, 0⟩ ∨ t1 ≠ ⟨0, 0, 0⟩) :
    getText (addArc (addArc mdl s1 r1 a1 b1 rot1 t1) s2 r2 a2 b2 rot2 t2)
        fs ss sc rad =
      mdl.wires
        ++ [ga (mdl.tag + 1) s1 r1 a1 b1 mdl.wireRadius,
            ga (mdl.tag + 1 + 1) s2 r2 a2 b2 mdl.wireRadius]
        ++ mdl.transforms ++ mdl.transformBuffer
        ++ [gm rot1.rx rot1.ry rot1.rz t1.x t1.y t1.z (mdl.tag + 1),
            gm 0 0 0 (-t1.x) (-t1.y) (-t1.z) (mdl.tag + 1 + 1),
            gm 0 0 (-rot1.rz) 0 0 0 (mdl.tag + 1 + 1),
            gm 0 (-rot1.ry) 0 0 0 0 (mdl.tag + 1 + 1),
            gm (-rot1.rx) 0 0 0 0 0 (mdl.tag + 1 + 1),
            gm rot2.rx rot2.ry rot2.rz t2.x t2.y t2.z (mdl.tag + 1 + 1)]
        ++ footerOf mdl fs ss sc rad := by
  simp [getText, addArc, flushTransformBuffer, footerOf, exCards, ldCards,
    List.append_assoc]

/-- Witness for C1 on a concrete two-arc model. -/
theorem arc_arc_render_order_witness :
    getText (addArc (addArc (mkModel 1 0) 8 2 0 90 ⟨10, 20, 30⟩ ⟨1, 2, 3⟩)
        8 2 0 90 ⟨40, 50, 60⟩ ⟨4, 5, 6⟩) 100 1 1 true =
      [ga 1 8 2 0 90 1, ga 2 8 2 0 90 1,
       gm 10 20 30 1 2 3 1,
       gm 0 0 0 (-1) (-2) (-3) 2,
       gm 0 0 (-30) 0 0 0 2,
       gm 0 (-20) 0 0 0 0 2,
       gm (-10) 0 0 0 0 0 2,
       gm 40 50 60 4 5 6 2,
       ge 0, fr 100 1 1, rp 37 73, en] := by
  have hthm := arc_arc_render_order (mkModel 1 0) 8 2 0 90 ⟨10, 20, 30⟩ ⟨1, 2, 3⟩
    8 2 0 90 ⟨40, 50, 60⟩ ⟨4, 5, 6⟩ 100 1 1 true (Or.inl (by decide))
  exact hthm.trans (by decide)

/-- Counterexample for C1 as stated: in the rendered stack of a concrete
two-arc model the second record is the second arc's GA card, not the first
arc's apply-GM card — the claimed interleaved order [GA, GM, GM, GM, GM, GM,
GA, GM, ...] does not occur. -/
theorem arc_arc_render_order_cex :
    ((getText (addArc (addArc (mkModel 1 0) 8 2 0 90 ⟨10, 20, 30⟩ ⟨1, 2, 3⟩)
          8 2 0 90 ⟨10, 20, 30⟩ ⟨1, 2, 3⟩) 100 1 1 true).map Card.mnemonic
      = ["GA", "GA", "GM", "GM", "GM", "GM", "GM", "GM", "GE", "FR", "RP", "EN"]) ∧
    ((getText (addArc (addArc (mkModel 1 0) 8 2 0 90 ⟨10, 20, 30⟩ ⟨1, 2, 3⟩)
          8 2 0 90 ⟨10, 20, 30⟩ ⟨1, 2, 3⟩) 100 1 1 true).map Card.mnemonic
      ≠ ["GA", "GM", "GM", "GM", "GM", "GM", "GA", "GM", "GE", "FR", "RP", "EN"]) := by
  exact ⟨by decide, by decide⟩
